import Mathlib

/-!
Verification of the `poland-in-numbers` repository.

The repository's executable source is a single bootstrap module
(`src/main.ts`, provided unnamed):

  const app = document.querySelector<HTMLDivElement>('#app');
  if (app) { app.innerHTML = `...static fragment...`; }

plus a Vite/Vitest configuration (`src/vite.config.ts`).

We shallowly embed the DOM as a forest of nodes (elements with a tag, an
attribute list and child nodes, and text nodes).  `document.querySelector`
with an id selector is embedded as a pre-order (document-order) search for
the first element carrying the id; the `innerHTML` assignment is embedded
as replacing that element's child list with the parse of the assigned
literal.  A run that dereferences a null element reference is modelled in
`Except`, so that the null guard of the source is visible in the embedding.
-/

/-- A DOM node: an element with tag name, attributes and children, or a
text node.  A document is a forest `List Node` of root nodes. -/
inductive Node where
  | elem : String → List (String × String) → List Node → Node
  | text : String → Node

/-- The value of the `id` attribute in an attribute list: the first
binding of the key `"id"`, if any. -/
def getId (attrs : List (String × String)) : Option String :=
  match attrs with
  | [] => none
  | (k, v) :: rest => if k = "id" then some v else getId rest

/-- The selector string passed to `document.querySelector` in the source:
the literal `'#app'`. -/
def mountSelector : String := "#app"

/-- The element id an id selector targets: the selector without its
leading `#`. -/
def selectorTargetId : String := mountSelector.drop 1

/-- `document.querySelector` restricted to id selectors: the first element
in document order (pre-order: an element precedes its descendants, which
precede its later siblings) whose `id` attribute equals `i`. -/
def querySelectorId (i : String) : List Node → Option Node
  | [] => none
  | Node.text _ :: ns => querySelectorId i ns
  | Node.elem t a cs :: ns =>
    if getId a = some i then some (Node.elem t a cs)
    else match querySelectorId i cs with
      | some m => some m
      | none => querySelectorId i ns

/-- The exact contents of the template literal assigned to
`app.innerHTML` in the source, whitespace included. -/
def innerHTMLLiteral : String :=
  "\n    <header>\n      <h1>Poland in Numbers</h1>\n      <p>D3.js Data Visualization App</p>\n    </header>\n    <main>\n      <div id=\"visualizations\"></div>\n    </main>\n  "

/-- The DOM parse of `innerHTMLLiteral`: the node list an `innerHTML`
assignment of that literal installs as the element's children.  Whitespace
between tags becomes text nodes, exactly as a browser parses it.
`renderNodes_bootstrapFragment` below checks this parse against the
literal character for character. -/
def bootstrapFragment : List Node :=
  [Node.text "\n    ",
   Node.elem "header" []
     [Node.text "\n      ",
      Node.elem "h1" [] [Node.text "Poland in Numbers"],
      Node.text "\n      ",
      Node.elem "p" [] [Node.text "D3.js Data Visualization App"],
      Node.text "\n    "],
   Node.text "\n    ",
   Node.elem "main" []
     [Node.text "\n      ",
      Node.elem "div" [("id", "visualizations")] [],
      Node.text "\n    "],
   Node.text "\n  "]

/-- Serialize an attribute list back to HTML source form. -/
def renderAttrs : List (String × String) → String
  | [] => ""
  | (k, v) :: rest => " " ++ k ++ "=\"" ++ v ++ "\"" ++ renderAttrs rest

/-- Serialize a node forest back to HTML source form. -/
def renderNodes : List Node → String
  | [] => ""
  | Node.text s :: ns => s ++ renderNodes ns
  | Node.elem t a cs :: ns =>
    "<" ++ t ++ renderAttrs a ++ ">" ++ renderNodes cs ++ "</" ++ t ++ ">"
      ++ renderNodes ns

/-- `el.innerHTML = ...` composed with the lookup that produced `el`:
replace the child list of the first element (document order) with id `i`
by `newKids`; `none` when no element matches, mirroring a null lookup. -/
def setInnerOfFirst (i : String) (newKids : List Node) : List Node → Option (List Node)
  | [] => none
  | Node.text s :: ns =>
    (setInnerOfFirst i newKids ns).map (fun ns' => Node.text s :: ns')
  | Node.elem t a cs :: ns =>
    if getId a = some i then some (Node.elem t a newKids :: ns)
    else match setInnerOfFirst i newKids cs with
      | some cs' => some (Node.elem t a cs' :: ns)
      | none => (setInnerOfFirst i newKids ns).map (fun ns' => Node.elem t a cs :: ns')

/-- The `app.innerHTML = ...` statement itself: assigning through a null
reference raises a `TypeError`; through a non-null reference it rewrites
the document. -/
def assignInnerHTML (i : String) (newKids : List Node) (doc : List Node) :
    Option Node → Except String (List Node)
  | none => Except.error "TypeError: Cannot set properties of null (setting 'innerHTML')"
  | some _ => Except.ok ((setInnerOfFirst i newKids doc).getD doc)

/-- The bootstrap of `src/main.ts` with raised errors made explicit:
`const app = document.querySelector('#app'); if (app) { app.innerHTML = ... }`.
The `if (app)` guard routes the null case away from the assignment. -/
def bootstrapRun (doc : List Node) : Except String (List Node) :=
  let app := querySelectorId selectorTargetId doc
  match app with
  | some el => assignInnerHTML selectorTargetId bootstrapFragment doc (some el)
  | none => Except.ok doc

/-- The bootstrap as a document transformer (its error branch is proved
unreachable in `claim_C5`). -/
def bootstrap (doc : List Node) : List Node :=
  match querySelectorId selectorTargetId doc with
  | some _ => (setInnerOfFirst selectorTargetId bootstrapFragment doc).getD doc
  | none => doc

/-- All nodes of a forest in document order (pre-order). -/
def preOrderNodes : List Node → List Node
  | [] => []
  | Node.text s :: ns => Node.text s :: preOrderNodes ns
  | Node.elem t a cs :: ns =>
    Node.elem t a cs :: (preOrderNodes cs ++ preOrderNodes ns)

/-- Whether a node is an element whose id attribute equals `i`. -/
def isMountElem (i : String) : Node → Bool
  | Node.elem _ a _ => getId a == some i
  | Node.text _ => false

/-- The node addressed by a path of child indices: `[j]` is the `j`-th
root; `j :: q` descends into the `j`-th root along `q`. -/
def nodeAt : List Node → List Nat → Option Node
  | _, [] => none
  | [], _ :: _ => none
  | n :: _, 0 :: [] => some n
  | Node.text _ :: _, 0 :: _ :: _ => none
  | Node.elem _ _ cs :: _, 0 :: j :: q => nodeAt cs (j :: q)
  | _ :: ns, (k + 1) :: q => nodeAt ns (k :: q)

/-- Shift a path one sibling to the right at its top level. -/
def bumpPath : List Nat → List Nat
  | [] => []
  | j :: q => (j + 1) :: q

/-- The path to the first element (document order) with id `i`. -/
def mountPath (i : String) : List Node → Option (List Nat)
  | [] => none
  | Node.text _ :: ns => (mountPath i ns).map bumpPath
  | Node.elem _ a cs :: ns =>
    if getId a = some i then some [0]
    else match mountPath i cs with
      | some p => some (0 :: p)
      | none => (mountPath i ns).map bumpPath

/-- `properUnder p q` holds when `p` is a proper initial segment of `q`:
the node at `q` lies strictly below the node at `p`. -/
def properUnder : List Nat → List Nat → Bool
  | [], [] => false
  | [], _ :: _ => true
  | _ :: _, [] => false
  | j :: p, k :: q => if j = k then properUnder p q else false

/-- A node with its child list dropped: the data a DOM node carries by
itself (tag and attributes, or text), independent of its subtree. -/
def shallowLabel : Node → Node
  | Node.text s => Node.text s
  | Node.elem t a _ => Node.elem t a []

/-- Whether the forest has a descendant text node equal to `s`. -/
def hasTextNode (s : String) : List Node → Bool
  | [] => false
  | Node.text t :: ns => t == s || hasTextNode s ns
  | Node.elem _ _ cs :: ns => hasTextNode s cs || hasTextNode s ns

/-- Whether the forest has a descendant element with id `i` and no child
nodes at all. -/
def hasEmptyContainer (i : String) : List Node → Bool
  | [] => false
  | Node.text _ :: ns => hasEmptyContainer i ns
  | Node.elem _ a cs :: ns =>
    (getId a == some i && cs.isEmpty) || hasEmptyContainer i cs || hasEmptyContainer i ns

/-- The element nodes of a forest's top level, text nodes dropped. -/
def elementsOf : List Node → List Node
  | [] => []
  | Node.text _ :: ns => elementsOf ns
  | Node.elem t a cs :: ns => Node.elem t a cs :: elementsOf ns

/-! ## The Vite/Vitest configuration (`src/vite.config.ts`) -/

/-- The `coverage.thresholds` block of the Vitest configuration. -/
structure CoverageThresholds where
  lines : Nat
  functions : Nat
  branches : Nat
  statements : Nat

/-- The `coverage` block of the Vitest configuration. -/
structure CoverageConfig where
  provider : String
  reporter : List String
  exclude : List String
  thresholds : CoverageThresholds

/-- The `test` block of the Vitest configuration. -/
structure TestConfig where
  environment : String
  coverage : CoverageConfig

/-- The object passed to `defineConfig`. -/
structure ViteConfig where
  test : TestConfig

/-- The configuration literal of `src/vite.config.ts`. -/
def viteConfig : ViteConfig :=
  { test :=
    { environment := "jsdom",
      coverage :=
      { provider := "v8",
        reporter := ["text", "json", "html"],
        exclude := ["node_modules/", "tests/", "**/*.d.ts", "**/*.config.*"],
        thresholds :=
        { lines := 80, functions := 80, branches := 80, statements := 80 } } } }

/-! ## Lemmas about the query/rewrite pair -/

/-- The rewrite succeeds exactly when the query does: both scan the same
document in the same order for the same id. -/
theorem setInner_isSome (i : String) (kids : List Node) (ns : List Node) :
    (setInnerOfFirst i kids ns).isSome = (querySelectorId i ns).isSome := by
  induction ns using setInnerOfFirst.induct i kids with
  | case1 => simp [setInnerOfFirst, querySelectorId]
  | case2 s ns ih => simp [setInnerOfFirst, querySelectorId, ih]
  | case3 t a cs ns h => simp [setInnerOfFirst, querySelectorId, h]
  | case4 t a cs ns h cs' hset ih =>
    have hq : (querySelectorId i cs).isSome = true := by rw [← ih, hset]; rfl
    obtain ⟨m, hm⟩ := Option.isSome_iff_exists.mp hq
    simp [setInnerOfFirst, querySelectorId, h, hset, hm]
  | case5 t a cs ns h hset ih1 ih2 =>
    have hq : querySelectorId i cs = none := by
      cases hq : querySelectorId i cs with
      | none => rfl
      | some m => rw [hset, hq] at ih1; simp at ih1
    simp [setInnerOfFirst, querySelectorId, h, hset, hq, ih2]

/-- A successful query returns an element node whose id matches. -/
theorem querySelectorId_shape (i : String) (ns : List Node) :
    ∀ n, querySelectorId i ns = some n →
      ∃ t a c, n = Node.elem t a c ∧ getId a = some i := by
  induction ns using querySelectorId.induct i with
  | case1 => intro n h; simp [querySelectorId] at h
  | case2 s ns ih => intro n h; rw [querySelectorId] at h; exact ih n h
  | case3 t a cs ns h =>
    intro n hn
    rw [querySelectorId, if_pos h] at hn
    exact ⟨t, a, cs, (Option.some_inj.mp hn).symm, h⟩
  | case4 t a cs ns h m hm ih =>
    intro n hn
    rw [querySelectorId, if_neg h, hm] at hn
    have hn' : some m = some n := hn
    exact ih n (hm.trans hn')
  | case5 t a cs ns h hm ih1 ih2 =>
    intro n hn
    rw [querySelectorId, if_neg h, hm] at hn
    have hn' : querySelectorId i ns = some n := hn
    exact ih2 n hn'

/-- Rewriting the first matching element leaves it first: after the
rewrite, the same query finds the same element, now carrying the new
children, whatever its children were before. -/
theorem setInner_query (i : String) (kids : List Node) (ns : List Node) :
    ∀ t a c, querySelectorId i ns = some (Node.elem t a c) →
      ∃ ns', setInnerOfFirst i kids ns = some ns' ∧
        querySelectorId i ns' = some (Node.elem t a kids) := by
  induction ns using querySelectorId.induct i with
  | case1 => intro t a c h; simp [querySelectorId] at h
  | case2 s ns ih =>
    intro t a c h
    rw [querySelectorId] at h
    obtain ⟨ns', hset, hq⟩ := ih t a c h
    exact ⟨Node.text s :: ns', by simp [setInnerOfFirst, hset],
           by rw [querySelectorId]; exact hq⟩
  | case3 t0 a0 cs ns h =>
    intro t a c hn
    rw [querySelectorId, if_pos h] at hn
    obtain ⟨ht, ha, hc⟩ : t0 = t ∧ a0 = a ∧ cs = c := by
      have := Option.some_inj.mp hn
      exact ⟨congrArg (fun n => match n with | Node.elem t _ _ => t | _ => t0) this,
             congrArg (fun n => match n with | Node.elem _ a _ => a | _ => a0) this,
             congrArg (fun n => match n with | Node.elem _ _ c => c | _ => cs) this⟩
    subst ht; subst ha; subst hc
    exact ⟨Node.elem t0 a0 kids :: ns, by simp [setInnerOfFirst, h],
           by rw [querySelectorId, if_pos h]⟩
  | case4 t0 a0 cs ns h m hm ih =>
    intro t a c hn
    rw [querySelectorId, if_neg h, hm] at hn
    have hn' : some m = some (Node.elem t a c) := hn
    obtain ⟨cs', hset, hq⟩ := ih t a c (hm.trans hn')
    exact ⟨Node.elem t0 a0 cs' :: ns, by simp [setInnerOfFirst, h, hset],
           by rw [querySelectorId, if_neg h, hq]⟩
  | case5 t0 a0 cs ns h hm ih1 ih2 =>
    intro t a c hn
    rw [querySelectorId, if_neg h, hm] at hn
    have hn' : querySelectorId i ns = some (Node.elem t a c) := hn
    obtain ⟨ns', hset, hq⟩ := ih2 t a c hn'
    have hcs : setInnerOfFirst i kids cs = none := by
      cases hc : setInnerOfFirst i kids cs with
      | none => rfl
      | some _ => have := setInner_isSome i kids cs; rw [hc, hm] at this; simp at this
    exact ⟨Node.elem t0 a0 cs :: ns', by simp [setInnerOfFirst, h, hcs, hset],
           by rw [querySelectorId, if_neg h, hm, hq]⟩

/-- The rewrite is idempotent: applying it to its own output returns the
output unchanged. -/
theorem setInner_idem (i : String) (kids : List Node) (ns : List Node) :
    ∀ ns', setInnerOfFirst i kids ns = some ns' →
      setInnerOfFirst i kids ns' = some ns' := by
  induction ns using setInnerOfFirst.induct i kids with
  | case1 => intro ns' h; simp [setInnerOfFirst] at h
  | case2 s ns ih =>
    intro ns' h
    rw [setInnerOfFirst] at h
    obtain ⟨ns0, hns0, rfl⟩ := Option.map_eq_some'.mp h
    rw [setInnerOfFirst, ih ns0 hns0]; rfl
  | case3 t a cs ns h =>
    intro ns' hns
    rw [setInnerOfFirst, if_pos h] at hns
    obtain rfl := Option.some_inj.mp hns
    rw [setInnerOfFirst, if_pos h]
  | case4 t a cs ns h cs' hset ih =>
    intro ns' hns
    rw [setInnerOfFirst, if_neg h, hset] at hns
    obtain rfl := Option.some_inj.mp hns
    rw [setInnerOfFirst, if_neg h, ih cs' hset]
  | case5 t a cs ns h hset ih1 ih2 =>
    intro ns' hns
    rw [setInnerOfFirst, if_neg h, hset] at hns
    obtain ⟨ns0, hns0, rfl⟩ := Option.map_eq_some'.mp hns
    rw [setInnerOfFirst, if_neg h, hset, ih2 ns0 hns0]; rfl

/-- The path search succeeds exactly when the query does. -/
theorem mountPath_isSome (i : String) (ns : List Node) :
    (mountPath i ns).isSome = (querySelectorId i ns).isSome := by
  induction ns using mountPath.induct i with
  | case1 => simp [mountPath, querySelectorId]
  | case2 s ns ih => simp [mountPath, querySelectorId, ih]
  | case3 t a cs ns h => simp [mountPath, querySelectorId, h]
  | case4 t a cs ns h p hp ih =>
    have hq : (querySelectorId i cs).isSome = true := by rw [← ih, hp]; rfl
    obtain ⟨m, hm⟩ := Option.isSome_iff_exists.mp hq
    simp [mountPath, querySelectorId, h, hp, hm]
  | case5 t a cs ns h hp ih1 ih2 =>
    have hq : querySelectorId i cs = none := by
      cases hq : querySelectorId i cs with
      | none => rfl
      | some m => rw [hp, hq] at ih1; simp at ih1
    simp [mountPath, querySelectorId, h, hp, hq, ih2]

/-- A found mount path is never empty: it addresses an actual node. -/
theorem mountPath_shape (i : String) (ns : List Node) :
    ∀ p, mountPath i ns = some p → ∃ j q, p = j :: q := by
  induction ns using mountPath.induct i with
  | case1 => intro p h; simp [mountPath] at h
  | case2 s ns ih =>
    intro p h
    rw [mountPath] at h
    obtain ⟨p0, hp0, rfl⟩ := Option.map_eq_some'.mp h
    obtain ⟨j, q, rfl⟩ := ih p0 hp0
    exact ⟨j + 1, q, rfl⟩
  | case3 t a cs ns h =>
    intro p hp
    rw [mountPath, if_pos h] at hp
    exact ⟨0, [], (Option.some_inj.mp hp).symm⟩
  | case4 t a cs ns h pc hpc ih =>
    intro p hp
    rw [mountPath, if_neg h, hpc] at hp
    exact ⟨0, pc, (Option.some_inj.mp hp).symm⟩
  | case5 t a cs ns h hpc ih1 ih2 =>
    intro p hp
    rw [mountPath, if_neg h, hpc] at hp
    have hp' : (mountPath i ns).map bumpPath = some p := hp
    obtain ⟨p0, hp0, rfl⟩ := Option.map_eq_some'.mp hp'
    obtain ⟨j, q, rfl⟩ := ih2 p0 hp0
    exact ⟨j + 1, q, rfl⟩

/-- Frame property of the rewrite: at every path that is not strictly
below the mount path, the node (its own tag, attributes or text; its
subtree set aside) is the same before and after the rewrite. -/
theorem setInner_frame (i : String) (kids : List Node) (ns : List Node) :
    ∀ ns' p q, setInnerOfFirst i kids ns = some ns' →
      mountPath i ns = some p → properUnder p q = false →
      (nodeAt ns' q).map shallowLabel = (nodeAt ns q).map shallowLabel := by
  induction ns using setInnerOfFirst.induct i kids with
  | case1 => intro ns' p q h; simp [setInnerOfFirst] at h
  | case2 s ns ih =>
    intro ns' p q hset hp hq
    rw [setInnerOfFirst] at hset
    obtain ⟨ns0, hns0, rfl⟩ := Option.map_eq_some'.mp hset
    rw [mountPath] at hp
    obtain ⟨p0, hp0, rfl⟩ := Option.map_eq_some'.mp hp
    obtain ⟨j, q0, rfl⟩ := mountPath_shape i ns p0 hp0
    rcases q with _ | ⟨_ | k, q'⟩
    · simp [nodeAt]
    · rcases q' with _ | ⟨j', q''⟩
      · simp [nodeAt]
      · simp [nodeAt]
    · have hq' : properUnder (j :: q0) (k :: q') = false := by
        simp only [bumpPath, properUnder] at hq ⊢
        simpa using hq
      simpa [nodeAt] using ih ns0 (j :: q0) (k :: q') hns0 hp0 hq'
  | case3 t a cs ns h =>
    intro ns' p q hset hp hq
    rw [setInnerOfFirst, if_pos h] at hset
    obtain rfl := Option.some_inj.mp hset
    rw [mountPath, if_pos h] at hp
    obtain rfl := Option.some_inj.mp hp
    rcases q with _ | ⟨_ | k, q'⟩
    · simp [nodeAt]
    · rcases q' with _ | ⟨j', q''⟩
      · simp [nodeAt, shallowLabel]
      · simp [properUnder] at hq
    · simp [nodeAt]
  | case4 t a cs ns h cs' hset ih =>
    intro ns' p q hset' hp hq
    rw [setInnerOfFirst, if_neg h, hset] at hset'
    obtain rfl := Option.some_inj.mp hset'
    have hmc : ∃ pc, mountPath i cs = some pc := by
      apply Option.isSome_iff_exists.mp
      rw [mountPath_isSome, ← setInner_isSome i kids, hset]; rfl
    obtain ⟨pc, hpc⟩ := hmc
    rw [mountPath, if_neg h, hpc] at hp
    obtain rfl := Option.some_inj.mp hp
    rcases q with _ | ⟨_ | k, q'⟩
    · simp [nodeAt]
    · rcases q' with _ | ⟨j', q''⟩
      · simp [nodeAt, shallowLabel]
      · have hq' : properUnder pc (j' :: q'') = false := by
          simpa [properUnder] using hq
        simpa [nodeAt] using ih cs' pc (j' :: q'') hset hpc hq'
    · simp [nodeAt]
  | case5 t a cs ns h hset ih1 ih2 =>
    intro ns' p q hset' hp hq
    rw [setInnerOfFirst, if_neg h, hset] at hset'
    have hset'' : (setInnerOfFirst i kids ns).map (fun ns' => Node.elem t a cs :: ns') = some ns' := hset'
    obtain ⟨ns0, hns0, rfl⟩ := Option.map_eq_some'.mp hset''
    have hmc : mountPath i cs = none := by
      cases hmc : mountPath i cs with
      | none => rfl
      | some pc =>
        have := mountPath_isSome i cs
        rw [hmc, ← setInner_isSome i kids, hset] at this
        simp at this
    rw [mountPath, if_neg h, hmc] at hp
    have hp' : (mountPath i ns).map bumpPath = some p := hp
    obtain ⟨p0, hp0, rfl⟩ := Option.map_eq_some'.mp hp'
    obtain ⟨j, q0, rfl⟩ := mountPath_shape i ns p0 hp0
    rcases q with _ | ⟨_ | k, q'⟩
    · simp [nodeAt]
    · rcases q' with _ | ⟨j', q''⟩
      · simp [nodeAt, shallowLabel]
      · simp [nodeAt]
    · have hq' : properUnder (j :: q0) (k :: q') = false := by
        simp only [bumpPath, properUnder] at hq ⊢
        simpa using hq
      simpa [nodeAt] using ih2 ns0 (j :: q0) (k :: q') hns0 hp0 hq'

/-- The query is exactly `find?` over the document-order node list. -/
theorem querySelectorId_eq_find (i : String) (ns : List Node) :
    querySelectorId i ns = (preOrderNodes ns).find? (isMountElem i) := by
  induction ns using querySelectorId.induct i with
  | case1 => simp [querySelectorId, preOrderNodes]
  | case2 s ns ih =>
    rw [querySelectorId, preOrderNodes, List.find?_cons_of_neg _ (by simp [isMountElem])]
    exact ih
  | case3 t a cs ns h =>
    rw [querySelectorId, if_pos h, preOrderNodes,
        List.find?_cons_of_pos _ (by simp [isMountElem, h])]
  | case4 t a cs ns h m hm ih =>
    rw [querySelectorId, if_neg h, hm, preOrderNodes,
        List.find?_cons_of_neg _ (by simp [isMountElem, h]), List.find?_append, ← ih, hm]
    rfl
  | case5 t a cs ns h hm ih1 ih2 =>
    rw [querySelectorId, if_neg h, hm, preOrderNodes,
        List.find?_cons_of_neg _ (by simp [isMountElem, h]), List.find?_append, ← ih1, hm]
    exact ih2

/-! ## Lemmas at the `bootstrap` level -/

/-- The id the source's selector denotes. -/
theorem selectorTargetId_eq : selectorTargetId = "app" := by decide

/-- With no mount element, the bootstrap returns its input. -/
theorem bootstrap_eq_of_none (doc : List Node)
    (h : querySelectorId selectorTargetId doc = none) : bootstrap doc = doc := by
  simp [bootstrap, h]

/-- When the rewrite succeeds, the bootstrap returns its result. -/
theorem bootstrap_eq_of_some (doc ns' : List Node)
    (h : setInnerOfFirst selectorTargetId bootstrapFragment doc = some ns') :
    bootstrap doc = ns' := by
  have hq : (querySelectorId selectorTargetId doc).isSome = true := by
    rw [← setInner_isSome selectorTargetId bootstrapFragment, h]; rfl
  obtain ⟨m, hm⟩ := Option.isSome_iff_exists.mp hq
  simp [bootstrap, hm, h]

/-- The bootstrap rewrites the first matching element's children to the
fragment, and that element stays the query's answer afterwards. -/
theorem bootstrap_rewrites_first (doc : List Node) (t : String)
    (a : List (String × String)) (c : List Node)
    (h : querySelectorId selectorTargetId doc = some (Node.elem t a c)) :
    querySelectorId selectorTargetId (bootstrap doc) =
      some (Node.elem t a bootstrapFragment) := by
  obtain ⟨ns', hset, hq⟩ :=
    setInner_query selectorTargetId bootstrapFragment doc t a c h
  rw [bootstrap_eq_of_some doc ns' hset]
  exact hq

/-! ## Sample documents used by the witnesses -/

/-- A document carrying the mount element plus an unrelated sibling. -/
def sampleDoc : List Node :=
  [Node.elem "body" []
    [Node.elem "div" [("id", "app")] [Node.text "loading"],
     Node.elem "footer" [] [Node.text "static footer"]]]

/-- A document with two elements matching the mount id. -/
def docTwoApps : List Node :=
  [Node.elem "div" [("id", "app")] [Node.text "first"],
   Node.elem "div" [("id", "app")] [Node.text "second"]]

/-- A document without any element matching the mount id. -/
def docNoApp : List Node :=
  [Node.elem "body" [] [Node.elem "div" [("id", "main")] [Node.text "x"]]]

/-- The parse recorded in `bootstrapFragment` serializes back to the
source's template literal, character for character. -/
theorem renderNodes_bootstrapFragment :
    renderNodes bootstrapFragment = innerHTMLLiteral := by
  simp [renderNodes, renderAttrs, bootstrapFragment, innerHTMLLiteral]

/-! ## The claims -/

/-- C1: for every document that contains a mount element with the expected
identifier, after the bootstrap runs, that element's content contains the
expected header text and an empty visualization container element. -/
theorem claim_C1 (doc : List Node)
    (h : (querySelectorId selectorTargetId doc).isSome = true) :
    ∃ t a, querySelectorId selectorTargetId (bootstrap doc) =
        some (Node.elem t a bootstrapFragment) ∧
      hasTextNode "Poland in Numbers" bootstrapFragment = true ∧
      hasEmptyContainer "visualizations" bootstrapFragment = true := by
  obtain ⟨n, hn⟩ := Option.isSome_iff_exists.mp h
  obtain ⟨t, a, c, rfl, hid⟩ := querySelectorId_shape selectorTargetId doc n hn
  exact ⟨t, a, bootstrap_rewrites_first doc t a c hn,
         by simp [hasTextNode, bootstrapFragment],
         by simp [hasEmptyContainer, getId, bootstrapFragment]⟩

/-- Witness for C1 at a concrete document holding the mount element. -/
theorem claim_C1_witness :
    ∃ t a, querySelectorId selectorTargetId (bootstrap sampleDoc) =
        some (Node.elem t a bootstrapFragment) ∧
      hasTextNode "Poland in Numbers" bootstrapFragment = true ∧
      hasEmptyContainer "visualizations" bootstrapFragment = true :=
  claim_C1 sampleDoc
    (by rw [selectorTargetId_eq]; simp [querySelectorId, getId, sampleDoc])

/-- C2: for every document that contains no mount element with the
expected identifier, the bootstrap completes without raising an error and
leaves the document unchanged. -/
theorem claim_C2 (doc : List Node)
    (h : querySelectorId selectorTargetId doc = none) :
    bootstrapRun doc = Except.ok doc ∧ bootstrap doc = doc := by
  constructor
  · simp [bootstrapRun, h]
  · exact bootstrap_eq_of_none doc h

/-- Witness for C2 at a concrete document without the mount element. -/
theorem claim_C2_witness :
    bootstrapRun docNoApp = Except.ok docNoApp ∧ bootstrap docNoApp = docNoApp :=
  claim_C2 docNoApp
    (by rw [selectorTargetId_eq]; simp [querySelectorId, getId, docNoApp])

/-- C3: the write replaces the mount element's contents entirely: whatever
its prior children `c` were, after the bootstrap the element found by the
query carries exactly the fixed fragment as its content. -/
theorem claim_C3 (doc : List Node) (t : String) (a : List (String × String))
    (c : List Node)
    (h : querySelectorId selectorTargetId doc = some (Node.elem t a c)) :
    querySelectorId selectorTargetId (bootstrap doc) =
      some (Node.elem t a bootstrapFragment) :=
  bootstrap_rewrites_first doc t a c h

/-- Witness for C3 at a concrete document with nonempty prior content. -/
theorem claim_C3_witness :
    querySelectorId selectorTargetId (bootstrap sampleDoc) =
      some (Node.elem "div" [("id", "app")] bootstrapFragment) :=
  claim_C3 sampleDoc "div" [("id", "app")] [Node.text "loading"]
    (by rw [selectorTargetId_eq]; simp [querySelectorId, getId, sampleDoc])

/-- C4: the bootstrap write is idempotent: running the bootstrap twice in
succession yields exactly the same document state as running it once. -/
theorem claim_C4 (doc : List Node) : bootstrap (bootstrap doc) = bootstrap doc := by
  cases hq : querySelectorId selectorTargetId doc with
  | none => rw [bootstrap_eq_of_none doc hq, bootstrap_eq_of_none doc hq]
  | some n =>
    obtain ⟨t, a, c, rfl, hid⟩ := querySelectorId_shape selectorTargetId doc n hq
    obtain ⟨ns', hset, hq'⟩ :=
      setInner_query selectorTargetId bootstrapFragment doc t a c hq
    rw [bootstrap_eq_of_some doc ns' hset,
        bootstrap_eq_of_some ns' ns'
          (setInner_idem selectorTargetId bootstrapFragment doc ns' hset)]

/-- C5: the bootstrap never raises an error on any input document: the run
with explicit errors always returns `ok`, whether or not the mount
element is present. -/
theorem claim_C5 (doc : List Node) : bootstrapRun doc = Except.ok (bootstrap doc) := by
  cases hq : querySelectorId selectorTargetId doc with
  | none => simp [bootstrapRun, bootstrap, hq]
  | some el => simp [bootstrapRun, bootstrap, assignInnerHTML, hq]

/-- C6: the bootstrap writes to the designated mount element only: at
every path not strictly below the mount path, the node's own data (tag,
attributes or text) is unchanged by the bootstrap. -/
theorem claim_C6 (doc : List Node) (q : List Nat)
    (h : ∀ p, mountPath selectorTargetId doc = some p → properUnder p q = false) :
    (nodeAt (bootstrap doc) q).map shallowLabel =
      (nodeAt doc q).map shallowLabel := by
  cases hm : mountPath selectorTargetId doc with
  | none =>
    have hq : querySelectorId selectorTargetId doc = none := by
      cases hq : querySelectorId selectorTargetId doc with
      | none => rfl
      | some n =>
        have := mountPath_isSome selectorTargetId doc
        rw [hm, hq] at this
        simp at this
    rw [bootstrap_eq_of_none doc hq]
  | some p =>
    have hq : (querySelectorId selectorTargetId doc).isSome = true := by
      rw [← mountPath_isSome, hm]; rfl
    obtain ⟨ns', hset⟩ := Option.isSome_iff_exists.mp
      ((setInner_isSome selectorTargetId bootstrapFragment doc).trans hq)
    rw [bootstrap_eq_of_some doc ns' hset]
    exact setInner_frame selectorTargetId bootstrapFragment doc ns' p q hset hm (h p hm)

/-- Witness for C6: the footer sibling of the mount element is untouched
in a concrete document. -/
theorem claim_C6_witness :
    (nodeAt (bootstrap sampleDoc) [0, 1]).map shallowLabel =
      (nodeAt sampleDoc [0, 1]).map shallowLabel :=
  claim_C6 sampleDoc [0, 1] (by
    intro p hp
    have hm : mountPath selectorTargetId sampleDoc = some [0, 0] := by
      rw [selectorTargetId_eq]; simp [mountPath, getId, sampleDoc]
    rw [hm] at hp
    obtain rfl := Option.some_inj.mp hp
    decide)

/-- C7: the bootstrap is deterministic: it is a pure function of the
initial document, so two runs on equal initial documents produce equal
resulting documents. -/
theorem claim_C7 (d1 d2 : List Node) (h : d1 = d2) : bootstrap d1 = bootstrap d2 :=
  congrArg bootstrap h

/-- Witness for C7 at a concrete document. -/
theorem claim_C7_witness : bootstrap sampleDoc = bootstrap sampleDoc :=
  claim_C7 sampleDoc sampleDoc rfl

/-- C8: the build/test configuration declares the browser-DOM emulation
test environment (`jsdom`) and sets the per-metric coverage thresholds for
lines, functions, branches, and statements each to exactly 80. -/
theorem claim_C8 :
    viteConfig.test.environment = "jsdom" ∧
    viteConfig.test.coverage.thresholds.lines = 80 ∧
    viteConfig.test.coverage.thresholds.functions = 80 ∧
    viteConfig.test.coverage.thresholds.branches = 80 ∧
    viteConfig.test.coverage.thresholds.statements = 80 :=
  ⟨rfl, rfl, rfl, rfl, rfl⟩

/-- C9: the mount element is identified by the CSS selector `#app` (the
element with id `app`); the query returns the first matching element in
document order, and the bootstrap's write lands on that first element. -/
theorem claim_C9 :
    mountSelector = "#app" ∧ selectorTargetId = "app" ∧
    (∀ doc : List Node, querySelectorId selectorTargetId doc =
      (preOrderNodes doc).find? (isMountElem selectorTargetId)) ∧
    (∀ doc t a c, querySelectorId selectorTargetId doc = some (Node.elem t a c) →
      querySelectorId selectorTargetId (bootstrap doc) =
        some (Node.elem t a bootstrapFragment)) :=
  ⟨rfl, selectorTargetId_eq,
   fun doc => querySelectorId_eq_find selectorTargetId doc,
   fun doc t a c h => bootstrap_rewrites_first doc t a c h⟩

/-- Witness for C9: in a document with two matching elements, the write
lands on the first one. -/
theorem claim_C9_witness :
    querySelectorId selectorTargetId (bootstrap docTwoApps) =
      some (Node.elem "div" [("id", "app")] bootstrapFragment) :=
  claim_C9.2.2.2 docTwoApps "div" [("id", "app")] [Node.text "first"]
    (by rw [selectorTargetId_eq]; simp [querySelectorId, getId, docTwoApps])

/-- C10: the injected fragment's elements are exactly a `header` holding
an `h1` with text "Poland in Numbers" and a `p` with text "D3.js Data
Visualization App", followed by a `main` holding a `div` with id
`visualizations` that has no child nodes at all. -/
theorem claim_C10 :
    ∃ hkids mkids,
      elementsOf bootstrapFragment =
        [Node.elem "header" [] hkids, Node.elem "main" [] mkids] ∧
      elementsOf hkids =
        [Node.elem "h1" [] [Node.text "Poland in Numbers"],
         Node.elem "p" [] [Node.text "D3.js Data Visualization App"]] ∧
      elementsOf mkids = [Node.elem "div" [("id", "visualizations")] []] ∧
      getId [("id", "visualizations")] = some "visualizations" := by
  refine ⟨[Node.text "\n      ",
           Node.elem "h1" [] [Node.text "Poland in Numbers"],
           Node.text "\n      ",
           Node.elem "p" [] [Node.text "D3.js Data Visualization App"],
           Node.text "\n    "],
          [Node.text "\n      ",
           Node.elem "div" [("id", "visualizations")] [],
           Node.text "\n    "], ?_, ?_, ?_, ?_⟩ <;>
    simp [elementsOf, bootstrapFragment, getId]
